import Mathlib

/-!
Shallow embedding of the segment-trimming and entity/constraint-deletion core of the
CAD_Sketcher operators module (`operators_temp.py`), together with proofs about it.

The embedding models the scene as an explicit value (`Scene`) that every stateful
operation threads through.  Python object mutation of `Intersection` instances is
modelled by returning the updated instance; the scene's indexed entity/constraint
stores are modelled as lists.  Geometry queries (`distance_along_segment`,
`intersect`) live outside this module in the host/geometry layer, so the functions
that need them take them as parameters.
-/

namespace Sketcher

/-- 2D coordinates of sketch points.  The host uses floating point vectors; only
equality of coordinates matters to the graph logic modelled here, so integer pairs
suffice. -/
abbrev Coord := Int × Int

/-- Concrete entity kinds of the sketcher (the entity classes of `class_defines`). -/
inductive EKind where
  | point
  | line
  | arc
  | circle
  | sketch
deriving DecidableEq

/-- Constraint type tags (the `type` attribute of the constraint classes).  The
source's "RATIO" tag is written `ratioT`. -/
inductive CType where
  | coincident
  | midpoint
  | tangent
  | ratioT
  | distance
  | angle
  | diameter
  | equal
  | vertical
  | horizontal
  | parallel
  | perpendicular
deriving DecidableEq

/-- A scene entity: its `slvs_index`, concrete kind, position (meaningful for
points), the indices returned by `dependencies()` (for a segment these are its
defining points), and the owning sketch index for entity types that have a
`sketch_i` attribute. -/
structure Entity where
  idx : Nat
  kind : EKind
  co : Coord := (0, 0)
  deps : List Nat := []
  sketchIdx : Option Int := none
deriving DecidableEq

/-- A constraint: a stable identifier `cid` standing for Python object identity,
its type tag, and the entity indices held by its `entity1_i`, `entity2_i`, ...
reference fields (what `entities()` resolves). -/
structure Constraint where
  cid : Nat
  ctype : CType
  ents : List Nat
deriving DecidableEq

/-- The scene's sketcher data: the entity store, the constraint store (flattened;
the per-type collections of `constraints.get_lists()` are recovered by filtering on
the type tag), fresh-index allocators, and the active sketch index. -/
structure Scene where
  entities : List Entity
  constraints : List Constraint
  nextIdx : Nat
  nextCid : Nat
  activeSketch : Int := -1
deriving DecidableEq

/-- `context.scene.sketcher.entities.get(index)` (an out-of-range or negative index
yields `none`). -/
def Scene.getEntity (s : Scene) (i : Int) : Option Entity :=
  s.entities.find? (fun e => ((e.idx : Int) == i))

/-- Entity lookup by natural index. -/
def Scene.findEntity (s : Scene) (i : Nat) : Option Entity :=
  s.entities.find? (fun e => (e.idx == i))

/-- The list of live entity indices. -/
def Scene.entityIds (s : Scene) : List Nat :=
  s.entities.map (fun e => e.idx)

/-- Modelled from the spec: `Scene.entities.add_point(coordinate, sketch)` of the
entity store (`class_defines`, not under src/) creates a fresh point entity in the
active sketch and returns it. -/
def Scene.addPoint (s : Scene) (co : Coord) : Scene × Nat :=
  ({ s with
      entities := s.entities ++
        [{ idx := s.nextIdx, kind := EKind.point, co := co, deps := [],
           sketchIdx := some s.activeSketch }],
      nextIdx := s.nextIdx + 1 },
   s.nextIdx)

/-- Modelled from the spec: `Scene.entities.remove(index)` of the entity store
(`class_defines`, not under src/) removes the entity with the given index. -/
def Scene.removeEntity (s : Scene) (i : Nat) : Scene :=
  { s with entities := s.entities.filter (fun e => !(e.idx == i)) }

/-- Modelled from the spec: constraint creation of the constraint store
(`new_from_type` / `add_coincident` / `Constraint.copy`; `class_defines`, not under
src/): a new constraint of the given type referencing the given entities is
appended to its collection. -/
def Scene.addConstraint (s : Scene) (t : CType) (es : List Nat) : Scene :=
  { s with
      constraints := s.constraints ++ [{ cid := s.nextCid, ctype := t, ents := es }],
      nextCid := s.nextCid + 1 }

/-- In-place mutation of the entity with index `i` (Python attribute assignment on
a live entity). -/
def Scene.updateEntity (s : Scene) (i : Nat) (f : Entity → Entity) : Scene :=
  { s with entities := s.entities.map (fun e => if e.idx == i then f e else e) }

/-- In-place mutation of the constraint with identity `cid` (Python `setattr` on a
live constraint). -/
def Scene.updateConstraint (s : Scene) (cid : Nat) (f : Constraint → Constraint) : Scene :=
  { s with constraints := s.constraints.map (fun c => if c.cid == cid then f c else c) }

/-- The `element` field of an `Intersection`: either an intersecting entity, a
segment endpoint (also an entity), or a coincident/midpoint constraint.  The
constraint case snapshots the constraint's identity, type and reference fields. -/
inductive Element where
  | entity (e : Entity)
  | constr (cid : Nat) (ctype : CType) (ents : List Nat)
deriving DecidableEq

/-- `Intersection`: a point of interest along the segment being trimmed.  `index`
is assigned by `get_intersections` (initially `-1`), `isEndpt` is the
`_is_endpoint` flag, `pt` is the lazily materialized `_point` cache. -/
structure Intersection where
  element : Element
  co : Coord
  index : Int := -1
  isEndpt : Bool := false
  pt : Option Nat := none
deriving DecidableEq

/-- `Intersection.is_entity()`: the element is a geometric entity. -/
def Intersection.is_entity (i : Intersection) : Bool :=
  match i.element with
  | Element.entity _ => true
  | Element.constr _ _ _ => false

/-- `Intersection.is_constraint()`: the element is a constraint. -/
def Intersection.is_constraint (i : Intersection) : Bool :=
  match i.element with
  | Element.entity _ => false
  | Element.constr _ _ _ => true

/-- `Intersection.is_endpoint()`. -/
def Intersection.is_endpoint (i : Intersection) : Bool :=
  i.isEndpt

/-- `Intersection.get_point(context)`: returns the concrete point entity index for
this intersection, materializing it lazily.  If the element is itself a point
entity it is returned directly; if the element is a constraint its first
referenced entity is returned (`entities()[0]`; Python raises `IndexError` when a
constraint has no references, which cannot happen for constraints of this
program); otherwise a point is created at `co` once and cached, together with a
coincidence constraint between the new point and the element. -/
def Intersection.get_point (s : Scene) (i : Intersection) : Scene × Intersection × Nat :=
  match i.element with
  | Element.entity e =>
    if e.kind == EKind.point then (s, i, e.idx)
    else
      match i.pt with
      | some p => (s, i, p)
      | none =>
        let sp := s.addPoint i.co
        let s2 := sp.1.addConstraint CType.coincident [sp.2, e.idx]
        (s2, { i with pt := some sp.2 }, sp.2)
  | Element.constr _ _ es => (s, i, es.headD 0)

/-- `segment.is_closed()` (`class_defines`, not under src/).  Modelled from the
spec: a segment is closed exactly when it is a circle. -/
def isClosed (e : Entity) : Bool :=
  e.kind == EKind.circle

/-- `segment.connection_points()` (`class_defines`, not under src/).  Modelled from
the spec: the endpoint entities of an open segment (its defining points, resolved
in the scene); a closed segment has none. -/
def connection_points (s : Scene) (e : Entity) : List Entity :=
  if isClosed e then [] else e.deps.filterMap (fun d => s.findEntity d)

/-- `TrimSegment`: transient data of one trim attempt. -/
structure TrimSegment where
  segment : Entity
  pos : Coord
  inters : List Intersection
  closed : Bool
  connPts : List Entity
  obsolete : List Intersection
  reuseSeg : Bool
deriving DecidableEq

/-- `TrimSegment.add(element, co)`: append a fresh intersection. -/
def TrimSegment.add (ts : TrimSegment) (el : Element) (co : Coord) : TrimSegment :=
  { ts with inters := ts.inters ++ [{ element := el, co := co }] }

/-- `TrimSegment.__init__(segment, pos)`: for an open segment the connection
points are added as intersections flagged as endpoints. -/
def TrimSegment.init (s : Scene) (segment : Entity) (pos : Coord) : TrimSegment :=
  let base : TrimSegment :=
    { segment := segment, pos := pos, inters := [], closed := isClosed segment,
      connPts := connection_points s segment, obsolete := [], reuseSeg := false }
  if base.closed then base
  else
    base.connPts.foldl
      (fun ts p =>
        { ts with inters := ts.inters ++ [{ element := Element.entity p, co := p.co, isEndpt := true }] })
      base

/-- `TrimSegment._sorted()`: intersections sorted (stably, like Python's `sorted`)
by `segment.distance_along_segment(pos, co)`; the geometric query is the parameter
`dist`. -/
def TrimSegment.sortedInters (dist : Coord → Coord → Int) (ts : TrimSegment) : List Intersection :=
  ts.inters.insertionSort (fun a b => dist ts.pos a.co ≤ dist ts.pos b.co)

/-- The `for i, intr in enumerate(...): intr.index = i` loop of
`get_intersections`. -/
def assignIdx : Nat → List Intersection → List Intersection
  | _, [] => []
  | k, i :: rest => { i with index := (k : Int) } :: assignIdx (k + 1) rest

/-- `TrimSegment.get_intersections()`: the sorted intersections with `index`
assigned 0, 1, ... in order. -/
def TrimSegment.get_intersections (dist : Coord → Coord → Int) (ts : TrimSegment) : List Intersection :=
  assignIdx 0 (ts.sortedInters dist)

/-- `if intr not in obsolete: obsolete.append(intr)`. -/
def pushUnique (l : List Intersection) (x : Intersection) : List Intersection :=
  if x ∈ l then l else l ++ [x]

/-- The classification loop of `relevant_intersections`, with `c1`/`c2` the two
`closest` indices, accumulating the relevant and obsolete lists. -/
def relevantLoop (c1 c2 : Int) :
    List Intersection → List Intersection × List Intersection →
      List Intersection × List Intersection
  | [], acc => acc
  | intr :: rest, (rel, obs) =>
    let inC : Bool := intr.index == c1 || intr.index == c2
    if intr.isEndpt && inC then
      -- endpoint next to the trimmed piece: marked obsolete, excluded, `continue`
      relevantLoop c1 c2 rest (rel, pushUnique obs intr)
    else
      let rel1 := if intr.isEndpt then rel ++ [intr] else rel
      let obs1 := if inC && intr.is_constraint then pushUnique obs intr else obs
      let rel2 := if inC then rel1 ++ [intr] else rel1
      relevantLoop c1 c2 rest (rel2, obs1)

/-- `TrimSegment.relevant_intersections()`.  Returns `none` when there are no
intersections at all, where Python raises `IndexError` on `ordered[0]`; otherwise
the relevant list and the updated obsolete list. -/
def TrimSegment.relevant_intersections (dist : Coord → Coord → Int) (ts : TrimSegment) :
    Option (List Intersection × List Intersection) :=
  match ts.get_intersections dist with
  | [] => none
  | first :: rest =>
    let c1 := first.index
    let c2 := ((first :: rest).getLastD first).index
    some (relevantLoop c1 c2 (first :: rest) ([], ts.obsolete))

/-- `TrimSegment.check()`: `len(relevant_intersections()) in (2, 4)` (undefined,
i.e. a Python exception, when there are no intersections). -/
def TrimSegment.check (dist : Coord → Coord → Int) (ts : TrimSegment) : Option Bool :=
  (ts.relevant_intersections dist).map (fun ro => ro.1.length == 2 || ro.1.length == 4)

/-- `TrimSegment.ensure_points(context)`: materialize the point of every relevant
intersection, threading the scene; returns the updated scene and the relevant
intersections with their caches filled (Python mutates the shared `Intersection`
objects in place). -/
def ensurePoints (s : Scene) : List Intersection → Scene × List Intersection
  | [] => (s, [])
  | intr :: rest =>
    let r := Intersection.get_point s intr
    let e := ensurePoints r.1 rest
    (e.1, r.2.1 :: e.2)

/-- The pairing `[relevant[i*2 : i*2+2] for i in range(len(relevant) // 2)]`
followed by `intr_1, intr_2 = intrs` (a trailing odd element is dropped by the
`// 2`). -/
def toPairs : List Intersection → List (Intersection × Intersection)
  | a :: b :: rest => (a, b) :: toPairs rest
  | _ => []

/-- Modelled from the spec: `segment.replace(context, p1, p2, use_self)`
(`class_defines`, not under src/): with `use_self` the segment entity is mutated
in place to span the two given points, preserving its index; otherwise a
brand-new segment entity of the same concrete type is created (trimming a circle
yields an arc) and its fresh index returned. -/
def segmentReplace (s : Scene) (segIdx : Nat) (p1 p2 : Nat) (useSelf : Bool) : Scene × Nat :=
  if useSelf then
    (s.updateEntity segIdx (fun e => { e with deps := [p1, p2] }), segIdx)
  else
    match s.findEntity segIdx with
    | some e =>
      ({ s with
          entities := s.entities ++
            [{ idx := s.nextIdx,
               kind := if e.kind == EKind.circle then EKind.arc else e.kind,
               co := e.co, deps := [p1, p2], sketchIdx := e.sketchIdx }],
          nextIdx := s.nextIdx + 1 },
       s.nextIdx)
    | none => (s, s.nextIdx)  -- unreachable: the segment being trimmed is live

/-- One pass of the `for c, ents in constrs.items()` constraint-migration loop of
`TrimSegment.replace`, for the pair with number `pairIdx` and new segment index
`newIdx`.  Each cache entry `(cid, ctype, ents)` mirrors one entry of the
`constrs` dict: the live constraint (by identity `cid`) and the entity list
snapshot Python took before replacing began (and mutates via `ents[i] = ...`).
`ents.index(segment)` raises `ValueError` in Python when the segment is absent;
with at most two pairs this is unreachable and `List.indexOf` makes the step a
no-op instead. -/
def migrateLoop (segIdx newIdx : Nat) (pairIdx : Nat) :
    Scene → List (Nat × CType × List Nat) → List (Nat × CType × List Nat) →
      Scene × List (Nat × CType × List Nat)
  | s, acc, [] => (s, acc)
  | s, acc, (cid, ct, es) :: rest =>
    let i := es.indexOf segIdx
    if pairIdx != 0 then
      if ct == CType.ratioT || ct == CType.coincident || ct == CType.midpoint ||
          ct == CType.tangent then
        migrateLoop segIdx newIdx pairIdx s (acc ++ [(cid, ct, es)]) rest
      else
        let es2 := es.set i newIdx
        migrateLoop segIdx newIdx pairIdx (s.addConstraint ct es2)
          (acc ++ [(cid, ct, es2)]) rest
    else
      -- the original segment is not reused: repoint `entity{i+1}_i` of the
      -- original constraint at the new segment
      migrateLoop segIdx newIdx pairIdx
        (s.updateConstraint cid (fun c => { c with ents := c.ents.set i newIdx }))
        (acc ++ [(cid, ct, es)]) rest

/-- The `for index, intrs in enumerate(...)` segment-creation loop of
`TrimSegment.replace`: each relevant pair becomes one new segment; the first pair
reuses the original segment unless it is a circle (`if not intr_1: continue` is
skipped: an `Intersection` object is always truthy). -/
def replacePairs (segIdx : Nat) (isCircle : Bool) :
    Scene → List (Nat × CType × List Nat) → List (Intersection × Intersection) →
      Nat → Bool → Scene × Bool
  | s, _, [], _, reuse => (s, reuse)
  | s, constrs, (i1, i2) :: rest, pairIdx, reuse =>
    let reuseSegment : Bool := pairIdx == 0 && !isCircle
    let r1 := Intersection.get_point s i1
    let r2 := Intersection.get_point r1.1 i2
    let sr := segmentReplace r2.1 segIdx r1.2.2 r2.2.2 reuseSegment
    if reuseSegment then
      replacePairs segIdx isCircle sr.1 constrs rest (pairIdx + 1) true
    else
      let m := migrateLoop segIdx sr.2 pairIdx sr.1 [] constrs
      replacePairs segIdx isCircle m.1 m.2 rest (pairIdx + 1) reuse

/-- `constraints.get_index(c)` (`class_defines`, not under src/): the local index
of the constraint with identity `cid` inside its type collection.  Modelled from
the spec's description of the per-type constraint collections. -/
def constraintLocalIndex (s : Scene) (t : CType) (cid : Nat) : Option Nat :=
  ((s.constraints.filter (fun c => c.ctype == t)).enum.find?
      (fun p => p.2.cid == cid)).map (fun p => p.1)

/-- `data_coll.remove(i)`: remove the element at local index `i` of the type-`t`
collection (out of range: Python/bpy raise; here a no-op). -/
def removeNthOfType : List Constraint → CType → Nat → List Constraint
  | [], _, _ => []
  | c :: rest, t, i =>
    if c.ctype == t then
      if i == 0 then rest else c :: removeNthOfType rest t (i - 1)
    else c :: removeNthOfType rest t i

/-- The inner `walker` of `get_flat_deps`: if the entity is already collected,
return; append it unless it is the root; then walk its dependencies (each skipped
when already collected).  `fuel` bounds the recursion depth (Python terminates
because every nested call appends a new entity; any fuel of at least
`scene.entities.length + 2` is never exhausted). -/
def walkDeps : Nat → Scene → List Nat → Bool → Nat → List Nat
  | 0, _, acc, _, _ => acc
  | fuel + 1, s, acc, isRoot, eid =>
    if eid ∈ acc then acc
    else
      let acc1 := if isRoot then acc else acc ++ [eid]
      match s.findEntity eid with
      | none => acc1
      | some e =>
        e.deps.foldl (fun ac d => if d ∈ ac then ac else walkDeps fuel s ac false d) acc1

/-- `get_flat_deps(entity)`: the flattened list of entities the given entity
transitively depends on, as indices (the root itself excluded). -/
def get_flat_deps (s : Scene) (root : Entity) : List Nat :=
  walkDeps (s.entities.length + 2) s [] true root.idx

/-- `get_entity_deps(entity, context)`: every scene entity whose flattened
dependency set contains the given entity (the Python generator, fully
enumerated). -/
def get_entity_deps (s : Scene) (e : Entity) : List Entity :=
  s.entities.filter (fun se => e.idx ∈ get_flat_deps s se)

/-- `is_entity_referenced(entity, context)`: the dependents generator yields at
least one element. -/
def is_entity_referenced (s : Scene) (e : Entity) : Bool :=
  !(get_entity_deps s e).isEmpty

/-- `get_sketch_deps_indicies(sketch, context)`: indices of the entities that
belong to the sketch (those whose `sketch_i` attribute exists and matches). -/
def get_sketch_deps_indicies (s : Scene) (sk : Entity) : List Nat :=
  s.entities.filterMap
    (fun e =>
      match e.sketchIdx with
      | none => none
      | some si => if ((sk.idx : Int) == si) then some e.idx else none)

/-- The fixed order in which `constraints.get_lists()` yields the per-type
collections. -/
def ctypeOrder : List CType :=
  [CType.coincident, CType.midpoint, CType.tangent, CType.ratioT, CType.distance,
   CType.angle, CType.diameter, CType.equal, CType.vertical, CType.horizontal,
   CType.parallel, CType.perpendicular]

/-- `get_constraint_local_indices(entity, context)`: for every constraint-type
collection, the local indices (in ascending collection order) of the constraints
whose `dependencies()` include the entity. -/
def get_constraint_local_indices (s : Scene) (eIdx : Nat) : List (CType × List Nat) :=
  ctypeOrder.map
    (fun t =>
      (t, (s.constraints.filter (fun c => c.ctype == t)).enum.filterMap
            (fun p => if eIdx ∈ p.2.ents then some p.1 else none)))

/-- `View3D_OT_slvs_delete_entity.delete(entity, context)`: remove, iterating the
collections in reverse, each collected constraint by its local index (the indices
inside one collection are consumed in the ascending order they were collected),
then remove the entity itself.  (The `entity.selected = False` flagging is
host-side UI state, not modelled.) -/
def opDelete (s : Scene) (e : Entity) : Scene :=
  let s1 :=
    (get_constraint_local_indices s e.idx).reverse.foldl
      (fun sc coll =>
        coll.2.foldl
          (fun sc2 i => { sc2 with constraints := removeNthOfType sc2.constraints coll.1 i })
          sc)
      s
  s1.removeEntity e.idx

/-- Result of `View3D_OT_slvs_delete_entity.main`: `notFound` when the index does
not resolve, `refused deps` when the entity is referenced (a warning naming the
dependents is reported and `{'CANCELLED'}` returned), `ok` otherwise. -/
inductive DelRes where
  | notFound
  | refused (deps : List Nat)
  | ok
deriving DecidableEq

/-- `View3D_OT_slvs_delete_entity.main(context, index, operator)`: resolve the
index; cascade-delete a sketch's children (in reverse index order) before
deleting the sketch; refuse a referenced entity with the list of dependents;
otherwise delete. -/
def deleteMain (s : Scene) (index : Int) : Scene × DelRes :=
  match s.getEntity index with
  | none => (s, DelRes.notFound)
  | some e =>
    if e.kind == EKind.sketch then
      -- activate_sketch(-1) and entity.remove_objects() are host-side
      let deps := get_sketch_deps_indicies s e
      let s1 :=
        deps.reverse.foldl
          (fun sc i =>
            match sc.findEntity i with
            | some se => opDelete sc se
            | none => sc)
          s
      (opDelete s1 e, DelRes.ok)
    else if is_entity_referenced s e then
      (s, DelRes.refused ((get_entity_deps s e).map (fun d => d.idx)))
    else
      (opDelete s e, DelRes.ok)

/-- `indices.sort(reverse=True)` of the batch-deletion branch. -/
def sortDesc (l : List Nat) : List Nat :=
  l.insertionSort (fun a b => b ≤ a)

/-- `View3D_OT_slvs_delete_entity.execute(context)`: an explicit index, or a
single selected entity, goes through `main`; two or more selected entities are
deleted in descending index order, silently skipping any that is referenced at
its turn.  (A selected index that no longer resolves would make Python raise
inside `delete`; it cannot occur since the selection holds live entities, and is
skipped here.) -/
def deleteExecute (s : Scene) (index : Int) (selected : List Nat) : Scene :=
  if index != -1 then (deleteMain s index).1
  else
    match selected with
    | [a] => (deleteMain s (a : Int)).1
    | _ =>
      (sortDesc selected).foldl
        (fun sc i =>
          match sc.findEntity i with
          | none => sc
          | some e => if is_entity_referenced sc e then sc else opDelete sc e)
        s

/-- Modelled from the spec: `class_defines.update_pointers(scene, index_old,
index_new)` is not under src/.  Per the spec's merge description it rewrites every
scene-wide reference to the first (about to be removed) entity index so that it
refers to the second index instead. -/
def update_pointers (s : Scene) (iOld iNew : Nat) : Scene :=
  { s with
      entities := s.entities.map
        (fun e => { e with deps := e.deps.map (fun d => if d == iOld then iNew else d) }),
      constraints := s.constraints.map
        (fun c => { c with ents := c.ents.map (fun d => if d == iOld then iNew else d) }) }

/-- `GenericConstraintOp.main(context)`: create a constraint of the operator's
type referencing the picked entities (`new_from_type` + `fill_entities`; the
solver run and viewport refresh are host-side). -/
def genericConstraintMain (s : Scene) (t : CType) (es : List Nat) : Scene :=
  s.addConstraint t es

/-- `VIEW3D_OT_slvs_add_coincident.main(context)`: when both picked entities are
points they are merged instead of constrained — pointers to the first point are
rewritten to the second and the first point is removed; otherwise the generic
constraint path runs.  (A pick that does not resolve would raise in Python before
any mutation; the scene is returned unchanged.) -/
def addCoincidentMain (s : Scene) (p1 p2 : Nat) : Scene :=
  match s.findEntity p1, s.findEntity p2 with
  | some e1, some e2 =>
    if e1.kind == EKind.point && e2.kind == EKind.point then
      (update_pointers s p1 p2).removeEntity p1
    else genericConstraintMain s CType.coincident [p1, p2]
  | _, _ => s

/-- The cleanup pass of `TrimSegment.replace`: every obsolete intersection is
resolved — a constraint-backed one through the delete-constraint operator (looked
up by type and current local index), an entity-backed one through the
delete-entity operator (which checks dependencies itself). -/
def cleanupObsolete (s : Scene) (obs : List Intersection) : Scene :=
  obs.foldl
    (fun sc intr =>
      match intr.element with
      | Element.constr cid ct _ =>
        match constraintLocalIndex sc ct cid with
        | some i => { sc with constraints := removeNthOfType sc.constraints ct i }
        | none => sc  -- the constraint is already gone; get_index finds nothing
      | Element.entity e => (deleteMain sc (e.idx : Int)).1)
    s

/-- `TrimSegment.replace(context)`: classify, snapshot the constraints that
reference the segment, materialize all relevant points, create one segment per
relevant pair (reusing the original for the first pair unless it is a circle)
while migrating constraints, delete the obsolete intersections, and finally
remove the original segment when no pair reused it.  Returns the scene and the
trim data with its `reuse_segment` flag and obsolete list updated.  (When there
are no intersections at all Python raises before mutating anything.) -/
def TrimSegment.replace (dist : Coord → Coord → Int) (s : Scene) (ts : TrimSegment) :
    Scene × TrimSegment :=
  match ts.relevant_intersections dist with
  | none => (s, ts)
  | some (rel, obs) =>
    let segIdx := ts.segment.idx
    let constrs :=
      (s.constraints.filter (fun c => segIdx ∈ c.ents)).map
        (fun c => (c.cid, c.ctype, c.ents))
    let ep := ensurePoints s rel
    -- context.view_layer.update() is host-side
    let rp := replacePairs segIdx (ts.segment.kind == EKind.circle) ep.1 constrs
        (toPairs ep.2) 0 false
    let s3 := cleanupObsolete rp.1 obs
    let s4 := if rp.2 then s3 else s3.removeEntity segIdx
    (s4, { ts with obsolete := obs, reuseSeg := rp.2 })

/-- The entity kinds `type(e) in class_defines.segment` accepts. -/
def isSegmentKind (k : EKind) : Bool :=
  k == EKind.line || k == EKind.arc || k == EKind.circle

/-- `sketch.sketch_entities(context)`: the scene entities belonging to the active
sketch. -/
def sketchEntities (s : Scene) : List Entity :=
  s.entities.filter (fun e => e.sketchIdx == some s.activeSketch)

/-- The trim-data collection phase of `View3D_OT_slvs_trim.fini`: construct the
`TrimSegment`, add an intersection per curve-curve crossing with every other
segment of the sketch (the geometric query `segment.intersect(e)` is the
parameter `intersectF`), then one per coincident/midpoint constraint that
references the segment, at the constraint's first entity's position
(`entities()[0].co`; a first entity that does not resolve would raise in Python
and cannot occur in a well-formed scene). -/
def buildTrim (intersectF : Entity → Entity → List Coord) (s : Scene) (segment : Entity)
    (pos : Coord) : TrimSegment :=
  let ts0 := TrimSegment.init s segment pos
  let ts1 :=
    (sketchEntities s).foldl
      (fun ts e =>
        if isSegmentKind e.kind && !(e == segment) then
          (intersectF segment e).foldl (fun t co => t.add (Element.entity e) co) ts
        else ts)
      ts0
  let cs := s.constraints.filter (fun c => c.ctype == CType.coincident) ++
      s.constraints.filter (fun c => c.ctype == CType.midpoint)
  cs.foldl
    (fun ts c =>
      if segment.idx ∈ c.ents then
        match c.ents.head? >>= s.findEntity with
        | some p => ts.add (Element.constr c.cid c.ctype c.ents) p.co
        | none => ts
      else ts)
    ts1

/-- The decision tail of `View3D_OT_slvs_trim.fini`: abort without touching the
scene unless `check()` passes (a `check` that raises — no intersections at all —
also aborts before any mutation), otherwise run `replace`. -/
def finiTrim (dist : Coord → Coord → Int) (intersectF : Entity → Entity → List Coord)
    (s : Scene) (segment : Entity) (pos : Coord) : Scene :=
  let ts := buildTrim intersectF s segment pos
  match ts.check dist with
  | some true => (TrimSegment.replace dist s ts).1
  | _ => s

/-! Concrete scenes used to evaluate the definitions at specific inputs. -/

/-- An ordering key for concrete runs: the x coordinate (a valid
`distance_along_segment` stand-in for a horizontal line with the pick left of
every intersection). -/
def distX : Coord → Coord → Int := fun _ co => co.1

/-- A point entity, endpoint of `lineL`. -/
def p1e : Entity := { idx := 1, kind := EKind.point, co := (2, 0), sketchIdx := some 0 }

/-- The other endpoint of `lineL`. -/
def p2e : Entity := { idx := 2, kind := EKind.point, co := (3, 0), sketchIdx := some 0 }

/-- An open line segment between `p1e` and `p2e`. -/
def lineL : Entity := { idx := 10, kind := EKind.line, deps := [1, 2], sketchIdx := some 0 }

/-- A second line, crossing `lineL`. -/
def lineM : Entity := { idx := 20, kind := EKind.line, deps := [], sketchIdx := some 0 }

/-- A sketch scene with the two lines and a distance constraint on `lineL`. -/
def scA : Scene :=
  { entities := [p1e, p2e, lineL, lineM],
    constraints := [{ cid := 0, ctype := CType.distance, ents := [10, 2] }],
    nextIdx := 100, nextCid := 50, activeSketch := 0 }

/-- A trim of `lineL` with two crossings of `lineM`, ordered before both
endpoints: two relevant intersections, first pair reuses the line. -/
def tsA : TrimSegment :=
  ((TrimSegment.init scA lineL (5, 0)).add (Element.entity lineM) (0, 0)).add
    (Element.entity lineM) (1, 0)

/-- A long line whose single crossing lies strictly between its endpoints in the
ordering: zero relevant intersections, so `check` fails. -/
def lineL2 : Entity := { idx := 11, kind := EKind.line, deps := [3, 4], sketchIdx := some 0 }

/-- Endpoint of `lineL2`. -/
def p3e : Entity := { idx := 3, kind := EKind.point, co := (0, 0), sketchIdx := some 0 }

/-- Endpoint of `lineL2`. -/
def p4e : Entity := { idx := 4, kind := EKind.point, co := (10, 0), sketchIdx := some 0 }

/-- Scene for the failing `check`. -/
def scF : Scene :=
  { entities := [p3e, p4e, lineL2, lineM],
    constraints := [], nextIdx := 100, nextCid := 50, activeSketch := 0 }

/-- `segment.intersect(e)` for the failing-`check` run: one crossing at (7, 0). -/
def intersectF1 : Entity → Entity → List Coord :=
  fun _ e => if e.idx == 20 then [(7, 0)] else []

/-- Scene exhibiting the constraint-removal slip of `delete`: two coincident
constraints depend on entity 0, a third one (on entity 1) does not. -/
def sc4 : Scene :=
  { entities := [{ idx := 0, kind := EKind.point }, { idx := 1, kind := EKind.point }],
    constraints := [{ cid := 0, ctype := CType.coincident, ents := [0] },
                    { cid := 1, ctype := CType.coincident, ents := [0] },
                    { cid := 2, ctype := CType.coincident, ents := [1] }],
    nextIdx := 10, nextCid := 10 }

/-- Scene for the point-merge run: two points and a distance constraint
referencing point 1. -/
def sc5 : Scene :=
  { entities := [{ idx := 1, kind := EKind.point }, { idx := 2, kind := EKind.point }],
    constraints := [{ cid := 0, ctype := CType.distance, ents := [1, 3] }],
    nextIdx := 10, nextCid := 10 }

/-- Scene with a line (entity 2) depending on a point (entity 1). -/
def sc6 : Scene :=
  { entities := [{ idx := 1, kind := EKind.point },
                 { idx := 2, kind := EKind.line, deps := [1] }],
    constraints := [], nextIdx := 10, nextCid := 10 }

/-- The dependent line of `sc6`. -/
def line6 : Entity := { idx := 2, kind := EKind.line, deps := [1] }

/-- The referenced point of `sc6`. -/
def point6 : Entity := { idx := 1, kind := EKind.point }

/-- An uncached entity intersection (used to run `get_point` twice). -/
def intrX : Intersection := { element := Element.entity lineM, co := (0, 0) }

/-- A closed circle segment. -/
def circC : Entity := { idx := 30, kind := EKind.circle, deps := [], sketchIdx := some 0 }

/-- Scene with the circle, the crossing line and an equality constraint on the
circle. -/
def scC : Scene :=
  { entities := [circC, lineM],
    constraints := [{ cid := 7, ctype := CType.equal, ents := [30, 20] }],
    nextIdx := 100, nextCid := 50, activeSketch := 0 }

/-- A trim of the circle with two crossings: two relevant intersections, no
endpoint, reuse forbidden. -/
def tsC : TrimSegment :=
  ((TrimSegment.init scC circC (5, 0)).add (Element.entity lineM) (0, 0)).add
    (Element.entity lineM) (1, 0)

/-! ## Helper lemmas -/

/-- A `get_point` result is stable: running `get_point` again on the returned
intersection, in any scene, changes nothing and returns the same point. -/
theorem get_point_stable (s s' : Scene) (i : Intersection) :
    Intersection.get_point s' (Intersection.get_point s i).2.1 =
      (s', (Intersection.get_point s i).2.1, (Intersection.get_point s i).2.2) := by
  rcases he : i.element with e | ⟨cid, ct, es⟩
  · by_cases hk : (e.kind == EKind.point) = true
    · simp [Intersection.get_point, he, hk]
    · rcases hp : i.pt with _ | p
      · simp [Intersection.get_point, he, hk, hp]
      · simp [Intersection.get_point, he, hk, hp]
  · simp [Intersection.get_point, he]

/-- Every intersection in the output of `ensurePoints` is materialized: a further
`get_point` is pure and deterministic. -/
theorem ensurePoints_stable :
    ∀ (rel : List Intersection) (s : Scene) (i : Intersection),
      i ∈ (ensurePoints s rel).2 →
      ∃ p, ∀ s' : Scene, Intersection.get_point s' i = (s', i, p) := by
  intro rel
  induction rel with
  | nil => intro s i hi; simp [ensurePoints] at hi
  | cons a rest ih =>
    intro s i hi
    simp only [ensurePoints] at hi
    rcases List.mem_cons.mp hi with h | h
    · subst h
      exact ⟨(Intersection.get_point s a).2.2, fun s' => get_point_stable s s' a⟩
    · exact ih (Intersection.get_point s a).1 i h

/-- `ensurePoints` preserves the number of relevant intersections. -/
theorem ensurePoints_length :
    ∀ (rel : List Intersection) (s : Scene),
      (ensurePoints s rel).2.length = rel.length := by
  intro rel
  induction rel with
  | nil => intro s; simp [ensurePoints]
  | cons a rest ih => intro s; simp [ensurePoints, ih]

/-- Pair numbers past the first never set the reuse flag. -/
theorem replacePairs_keep (segIdx : Nat) (isCircle : Bool) :
    ∀ (pairs : List (Intersection × Intersection)) (s : Scene)
      (constrs : List (Nat × CType × List Nat)) (k : Nat) (b : Bool),
      (replacePairs segIdx isCircle s constrs pairs (k + 1) b).2 = b := by
  intro pairs
  induction pairs with
  | nil => intro s constrs k b; simp [replacePairs]
  | cons p rest ih =>
    intro s constrs k b
    rcases p with ⟨i1, i2⟩
    have hc : ((k + 1 == 0) && !isCircle) = false := by simp
    simp only [replacePairs, hc, Bool.false_eq_true, if_false]
    exact ih _ _ (k + 1) b

/-- The reuse flag computed by the pair loop is "not a circle", as decided by the
first pair. -/
theorem replacePairs_reuse (segIdx : Nat) (isCircle : Bool)
    (p : Intersection × Intersection) (rest : List (Intersection × Intersection))
    (s : Scene) (constrs : List (Nat × CType × List Nat)) :
    (replacePairs segIdx isCircle s constrs (p :: rest) 0 false).2 = !isCircle := by
  rcases p with ⟨i1, i2⟩
  cases isCircle with
  | false =>
    simp only [replacePairs]
    simp [replacePairs_keep]
  | true =>
    simp only [replacePairs]
    simp [replacePairs_keep]

/-! ## Claim theorems -/

/-- C2: `TrimSegment.check()` returns true exactly when the number of relevant
intersections is 2 or 4, and when it returns false the trim operator performs no
scene mutation: `fini` returns the scene unchanged. -/
theorem trim_check_iff_and_abort (dist : Coord → Coord → Int)
    (intersectF : Entity → Entity → List Coord) (s : Scene) (segment : Entity)
    (pos : Coord) :
    (∀ rel obs,
        (buildTrim intersectF s segment pos).relevant_intersections dist = some (rel, obs) →
          ((buildTrim intersectF s segment pos).check dist = some true ↔
            (rel.length = 2 ∨ rel.length = 4))) ∧
    ((buildTrim intersectF s segment pos).check dist = some false →
      finiTrim dist intersectF s segment pos = s) := by
  constructor
  · intro rel obs h
    simp [TrimSegment.check, h]
  · intro h
    simp only [finiTrim]
    rw [h]

/-- Witness for C2 at a concrete scene: a single crossing strictly between the
endpoints yields zero relevant intersections, `check` fails, and `fini` leaves
the scene unchanged. -/
theorem trim_check_iff_and_abort_witness :
    finiTrim distX intersectF1 scF lineL2 (5, 0) = scF :=
  (trim_check_iff_and_abort distX intersectF1 scF lineL2 (5, 0)).2 (by decide)

/-- C4 (code bug): `delete` on entity 0 of `sc4` is supposed to remove every
constraint depending on it and leave no constraint referencing it.  Entity 0 is
unreferenced, two coincident constraints (local indices 0 and 1) depend on it,
yet the ascending in-collection removal deletes local index 0 and then local
index 1 of the already-shifted collection: the surviving constraint (`cid` 1)
still references the removed entity 0, while the unrelated constraint (`cid` 2,
on entity 1) has been removed. -/
theorem delete_leaves_dangling_constraint :
    is_entity_referenced sc4 { idx := 0, kind := EKind.point } = false ∧
    (deleteMain sc4 0).2 = DelRes.ok ∧
    (deleteMain sc4 0).1.constraints =
      [{ cid := 1, ctype := CType.coincident, ents := [0] }] ∧
    (deleteMain sc4 0).1.entityIds = [1] := by
  decide

/-- C5 counterexample: requesting a coincidence between the existing points 1
(first picked) and 2 (second picked) of `sc5` removes the FIRST point and keeps
the second — and rewrites the reference to point 1 into a reference to point 2 —
while the claim predicts point 2 is removed and point 1 remains. -/
theorem add_coincident_removes_first_point :
    (1 : Nat) ∉ (addCoincidentMain sc5 1 2).entityIds ∧
    (2 : Nat) ∈ (addCoincidentMain sc5 1 2).entityIds ∧
    (addCoincidentMain sc5 1 2).constraints =
      [{ cid := 0, ctype := CType.distance, ents := [2, 3] }] := by
  decide

/-- C5 (amended): when a coincidence is requested between two existing points, no
constraint is created; every scene-wide reference to the FIRST point's index is
rewritten to the SECOND's, and the first point entity is removed while the second
remains. -/
theorem merge_on_coincident (s : Scene) (p1 p2 : Nat) (e1 e2 : Entity)
    (h1 : s.findEntity p1 = some e1) (h2 : s.findEntity p2 = some e2)
    (hp1 : e1.kind = EKind.point) (hp2 : e2.kind = EKind.point) (hne : p1 ≠ p2) :
    addCoincidentMain s p1 p2 = (update_pointers s p1 p2).removeEntity p1 ∧
    (addCoincidentMain s p1 p2).constraints.length = s.constraints.length ∧
    (∀ c ∈ (addCoincidentMain s p1 p2).constraints, p1 ∉ c.ents) ∧
    p1 ∉ (addCoincidentMain s p1 p2).entityIds ∧
    (p2 ∈ s.entityIds → p2 ∈ (addCoincidentMain s p1 p2).entityIds) := by
  have hmain : addCoincidentMain s p1 p2 = (update_pointers s p1 p2).removeEntity p1 := by
    simp [addCoincidentMain, h1, h2, hp1, hp2]
  refine ⟨hmain, ?_, ?_, ?_, ?_⟩
  · simp [hmain, update_pointers, Scene.removeEntity]
  · intro c hc
    rw [hmain] at hc
    simp only [update_pointers, Scene.removeEntity, List.mem_map] at hc
    rcases hc with ⟨c0, _, rfl⟩
    intro hmem
    simp only [List.mem_map] at hmem
    rcases hmem with ⟨d, _, hd⟩
    by_cases hdp : (d == p1) = true
    · rw [if_pos hdp] at hd
      exact hne (hd ▸ rfl)
    · rw [if_neg hdp] at hd
      exact hdp (by simp [hd])
  · rw [hmain]
    intro hmem
    simp only [Scene.entityIds, update_pointers, Scene.removeEntity, List.mem_map,
      List.mem_filter] at hmem
    rcases hmem with ⟨e, ⟨_, hkeep⟩, hidx⟩
    simp [hidx] at hkeep
  · intro hmem
    rw [hmain]
    simp only [Scene.entityIds, List.mem_map] at hmem
    rcases hmem with ⟨e, he, hidx⟩
    simp only [Scene.entityIds, update_pointers, Scene.removeEntity, List.mem_map,
      List.mem_filter]
    refine ⟨{ e with deps := e.deps.map (fun d => if d == p1 then p2 else d) }, ⟨?_, ?_⟩, hidx⟩
    · exact ⟨e, he, rfl⟩
    · simp [hidx, Ne.symm hne]

/-- Witness for C5's amended statement at the concrete scene `sc5`. -/
theorem merge_on_coincident_witness :
    addCoincidentMain sc5 1 2 = (update_pointers sc5 1 2).removeEntity 1 ∧
    (addCoincidentMain sc5 1 2).constraints.length = sc5.constraints.length :=
  ⟨(merge_on_coincident sc5 1 2 { idx := 1, kind := EKind.point }
      { idx := 2, kind := EKind.point } (by decide) (by decide) rfl rfl (by decide)).1,
   (merge_on_coincident sc5 1 2 { idx := 1, kind := EKind.point }
      { idx := 2, kind := EKind.point } (by decide) (by decide) rfl rfl (by decide)).2.1⟩

/-- C6: deleting a non-sketch entity that a live entity depends on is refused:
the operator reports the dependents, returns a cancelled result, and the scene —
all entities and all constraints — is returned unchanged. -/
theorem delete_referenced_refused (s : Scene) (idx : Int) (e b : Entity)
    (hget : s.getEntity idx = some e) (hk : e.kind ≠ EKind.sketch)
    (hb : b ∈ s.entities) (hdep : e.idx ∈ get_flat_deps s b) :
    deleteMain s idx = (s, DelRes.refused ((get_entity_deps s e).map (fun d => d.idx))) ∧
    get_entity_deps s e ≠ [] := by
  have hmem : b ∈ get_entity_deps s e := by
    simp only [get_entity_deps, List.mem_filter]
    exact ⟨hb, by simpa using hdep⟩
  have hne : get_entity_deps s e ≠ [] := List.ne_nil_of_mem hmem
  have href : is_entity_referenced s e = true := by
    simp [is_entity_referenced, List.isEmpty_iff, hne]
  have hks : (e.kind == EKind.sketch) = false := by
    simp [hk]
  refine ⟨?_, hne⟩
  simp [deleteMain, hget, hks, href]

/-- Witness for C6: in `sc6` the line (entity 2) depends on the point (entity 1),
so deleting the point is refused and the scene is unchanged. -/
theorem delete_referenced_refused_witness :
    deleteMain sc6 1 = (sc6, DelRes.refused ((get_entity_deps sc6 point6).map (fun d => d.idx))) ∧
    get_entity_deps sc6 point6 ≠ [] :=
  delete_referenced_refused sc6 1 point6 line6 (by decide) (by decide) (by decide) (by decide)

/-- C8: calling `get_point` twice on the same intersection returns the identical
point both times and the second call performs no scene mutation at all. -/
theorem get_point_idempotent (s : Scene) (i : Intersection) (s1 : Scene)
    (i1 : Intersection) (p : Nat) (h : Intersection.get_point s i = (s1, i1, p)) :
    Intersection.get_point s1 i1 = (s1, i1, p) := by
  have hs := get_point_stable s s1 i
  rw [h] at hs
  exact hs

/-- Witness for C8: a concrete uncached entity intersection; the first call adds
the point and its coincidence constraint, the second call is pure. -/
theorem get_point_idempotent_witness :
    Intersection.get_point ((scA.addPoint (0, 0)).1.addConstraint CType.coincident [100, 20])
        { intrX with pt := some 100 } =
      ((scA.addPoint (0, 0)).1.addConstraint CType.coincident [100, 20],
        { intrX with pt := some 100 }, 100) :=
  get_point_idempotent scA intrX _ _ 100 (by decide)

/-- C10: invoking the delete operator without an explicit index and exactly one
selected entity follows the very same path as an index-specified deletion — in
particular a referenced entity is refused with an error (scene unchanged,
cancelled result), not silently skipped. -/
theorem delete_execute_single_selection (s : Scene) (a : Nat) (sel : List Nat) :
    deleteExecute s (-1) [a] = deleteExecute s (a : Int) sel ∧
    (∀ e, s.getEntity (a : Int) = some e → e.kind ≠ EKind.sketch →
      is_entity_referenced s e = true →
        deleteExecute s (-1) [a] = s ∧
        (deleteMain s (a : Int)).2 =
          DelRes.refused ((get_entity_deps s e).map (fun d => d.idx))) := by
  have hneg : (((-1 : Int)) != -1) = false := by decide
  have hpos : (((a : Int)) != -1) = true := by
    simp only [bne_iff_ne, ne_eq]
    omega
  constructor
  · simp [deleteExecute, hneg, hpos]
  · intro e hget hk href
    have hks : (e.kind == EKind.sketch) = false := by simp [hk]
    have hmain : deleteMain s (a : Int) =
        (s, DelRes.refused ((get_entity_deps s e).map (fun d => d.idx))) := by
      simp [deleteMain, hget, hks, href]
    constructor
    · simp [deleteExecute, hneg, hmain]
    · simp [hmain]

/-- Witness for C10: deleting the referenced point of `sc6` through a
single-entity selection is refused, not skipped. -/
theorem delete_execute_single_selection_witness :
    deleteExecute sc6 (-1) [1] = sc6 ∧
    (deleteMain sc6 1).2 = DelRes.refused ((get_entity_deps sc6 point6).map (fun d => d.idx)) :=
  (delete_execute_single_selection sc6 1 []).2 point6 (by decide) (by decide) (by decide)

/-- Removing an entity index leaves it out of the entity store. -/
theorem removeEntity_not_mem (s : Scene) (i : Nat) : i ∉ (s.removeEntity i).entityIds := by
  simp only [Scene.removeEntity, Scene.entityIds, List.mem_map, List.mem_filter]
  rintro ⟨e, ⟨_, hkeep⟩, hidx⟩
  simp [hidx] at hkeep

/-- C3: in `replace()` the first pair reuses the original segment entity exactly
when the segment is not a circle (so for a circle the original is never reused),
and whenever no pair reused it the original segment entity is removed from the
scene at the end of `replace()`. -/
theorem trim_replace_reuse_policy (dist : Coord → Coord → Int) (s : Scene)
    (ts : TrimSegment) (rel obs : List Intersection)
    (hrel : ts.relevant_intersections dist = some (rel, obs))
    (hlen : rel.length = 2 ∨ rel.length = 4) :
    (TrimSegment.replace dist s ts).2.reuseSeg = !(ts.segment.kind == EKind.circle) ∧
    ((TrimSegment.replace dist s ts).2.reuseSeg = false →
      ts.segment.idx ∉ (TrimSegment.replace dist s ts).1.entityIds) ∧
    (ts.segment.kind = EKind.circle →
      ts.segment.idx ∉ (TrimSegment.replace dist s ts).1.entityIds) := by
  have hlen2 : 2 ≤ (ensurePoints s rel).2.length := by
    rw [ensurePoints_length]
    rcases hlen with h | h <;> omega
  obtain ⟨a, b, t, ht⟩ : ∃ a b t, (ensurePoints s rel).2 = a :: b :: t := by
    cases h2 : (ensurePoints s rel).2 with
    | nil => rw [h2] at hlen2; simp at hlen2
    | cons x xs =>
      cases xs with
      | nil => rw [h2] at hlen2; simp at hlen2
      | cons y ys => exact ⟨x, y, ys, rfl⟩
  have hfst : ∀ constrs sc,
      (replacePairs ts.segment.idx (ts.segment.kind == EKind.circle) sc constrs
        (toPairs (ensurePoints s rel).2) 0 false).2 = !(ts.segment.kind == EKind.circle) := by
    intro constrs sc
    rw [ht]
    simp only [toPairs]
    exact replacePairs_reuse _ _ _ _ _ _
  have hflag : (TrimSegment.replace dist s ts).2.reuseSeg =
      !(ts.segment.kind == EKind.circle) := by
    simp only [TrimSegment.replace, hrel]
    exact hfst _ _
  refine ⟨hflag, ?_, ?_⟩
  · intro hfalse
    rw [hflag] at hfalse
    simp only [TrimSegment.replace, hrel]
    rw [hfst, hfalse]
    simp only [Bool.false_eq_true, if_false]
    exact removeEntity_not_mem _ _
  · intro hcirc
    have hfalse : (!(ts.segment.kind == EKind.circle)) = false := by simp [hcirc]
    simp only [TrimSegment.replace, hrel]
    rw [hfst, hfalse]
    simp only [Bool.false_eq_true, if_false]
    exact removeEntity_not_mem _ _

/-- Witness for C3: trimming the circle `circC` at two crossings — the reuse flag
is false (circle) and the original circle entity is removed by `replace`. -/
theorem trim_replace_reuse_policy_witness :
    (TrimSegment.replace distX scC tsC).2.reuseSeg = !(tsC.segment.kind == EKind.circle) ∧
    tsC.segment.idx ∉ (TrimSegment.replace distX scC tsC).1.entityIds :=
  have h := trim_replace_reuse_policy distX scC tsC
    [{ element := Element.entity lineM, co := (0, 0), index := 0 },
     { element := Element.entity lineM, co := (1, 0), index := 1 }] []
    (by decide) (Or.inl (by decide))
  ⟨h.1, h.2.2 (by decide)⟩

/-- Mutating an entity in place with an index-preserving function leaves lookup
of that index pointing at the mutated entity. -/
theorem findEntity_updateEntity (s : Scene) (i : Nat) (f : Entity → Entity)
    (hf : ∀ e, (f e).idx = e.idx) (e0 : Entity) (h : s.findEntity i = some e0) :
    (s.updateEntity i f).findEntity i = some (f e0) := by
  have hp : (e0.idx == i) = true := by
    have := List.find?_some (p := fun e : Entity => e.idx == i) (by simpa [Scene.findEntity] using h)
    exact this
  simp only [Scene.updateEntity, Scene.findEntity] at *
  rw [List.find?_map]
  have hcong : ((fun e : Entity => e.idx == i) ∘ fun e => if e.idx == i then f e else e) =
      fun e : Entity => e.idx == i := by
    funext e
    by_cases he : (e.idx == i) = true
    · simp [Function.comp, he, hf]
    · simp [Function.comp, he]
  rw [hcong, h]
  simp only [Option.map_some']
  rw [if_pos hp]

/-- C7: when the first pair reuses the original segment, the segment-creation
pass neither copies nor touches any constraint — in particular no new constraint
object is created for that pair — and the constraints that referenced the
original segment keep their unchanged reference fields, which resolve to the
mutated (reused) segment now spanning the pair's two materialized points. -/
theorem reused_segment_constraints_untouched (dist : Coord → Coord → Int) (s : Scene)
    (ts : TrimSegment) (rel obs : List Intersection)
    (constrs : List (Nat × CType × List Nat)) (segE : Entity)
    (_hrel : ts.relevant_intersections dist = some (rel, obs))
    (hlen : rel.length = 2)
    (hk : ts.segment.kind ≠ EKind.circle)
    (hfind : (ensurePoints s rel).1.findEntity ts.segment.idx = some segE) :
    (replacePairs ts.segment.idx (ts.segment.kind == EKind.circle) (ensurePoints s rel).1
        constrs (toPairs (ensurePoints s rel).2) 0 false).2 = true ∧
    (replacePairs ts.segment.idx (ts.segment.kind == EKind.circle) (ensurePoints s rel).1
        constrs (toPairs (ensurePoints s rel).2) 0 false).1.constraints =
      (ensurePoints s rel).1.constraints ∧
    (∀ c ∈ (ensurePoints s rel).1.constraints, ts.segment.idx ∈ c.ents →
      c ∈ (replacePairs ts.segment.idx (ts.segment.kind == EKind.circle) (ensurePoints s rel).1
        constrs (toPairs (ensurePoints s rel).2) 0 false).1.constraints) ∧
    (∃ q1 q2, (replacePairs ts.segment.idx (ts.segment.kind == EKind.circle)
        (ensurePoints s rel).1 constrs (toPairs (ensurePoints s rel).2) 0 false).1.findEntity
        ts.segment.idx = some { segE with deps := [q1, q2] }) := by
  have hl2 : (ensurePoints s rel).2.length = 2 := by rw [ensurePoints_length, hlen]
  obtain ⟨a, b, hab⟩ : ∃ a b, (ensurePoints s rel).2 = [a, b] := by
    cases h2 : (ensurePoints s rel).2 with
    | nil => rw [h2] at hl2; simp at hl2
    | cons x xs =>
      cases xs with
      | nil => rw [h2] at hl2; simp at hl2
      | cons y ys =>
        cases ys with
        | nil => exact ⟨x, y, rfl⟩
        | cons z zs => rw [h2] at hl2; simp at hl2
  obtain ⟨pa, hpa⟩ := ensurePoints_stable rel s a (by rw [hab]; simp)
  obtain ⟨pb, hpb⟩ := ensurePoints_stable rel s b (by rw [hab]; simp)
  have hkc : (ts.segment.kind == EKind.circle) = false := by simp [hk]
  have hred : replacePairs ts.segment.idx (ts.segment.kind == EKind.circle)
      (ensurePoints s rel).1 constrs (toPairs (ensurePoints s rel).2) 0 false =
      ((ensurePoints s rel).1.updateEntity ts.segment.idx
        (fun e => { e with deps := [pa, pb] }), true) := by
    rw [hab]
    simp only [toPairs]
    simp [replacePairs, hpa, hpb, segmentReplace, hkc]
  refine ⟨by rw [hred], by rw [hred]; rfl, ?_, ?_⟩
  · intro c hc _
    rw [hred]
    exact hc
  · refine ⟨pa, pb, ?_⟩
    rw [hred]
    exact findEntity_updateEntity (ensurePoints s rel).1 ts.segment.idx
      (fun e => { e with deps := [pa, pb] }) (fun e => rfl) segE hfind

/-- Witness for C7: trimming `lineL` of `scA` (two relevant intersections, line
reused): the pair pass sets the reuse flag and leaves the constraint store of the
post-materialization scene untouched. -/
theorem reused_segment_constraints_untouched_witness :
    (replacePairs tsA.segment.idx (tsA.segment.kind == EKind.circle)
        (ensurePoints scA
          [{ element := Element.entity lineM, co := (0, 0), index := 0 },
           { element := Element.entity p1e, co := (2, 0), index := 2, isEndpt := true }]).1
        [(0, CType.distance, [10, 2])]
        (toPairs (ensurePoints scA
          [{ element := Element.entity lineM, co := (0, 0), index := 0 },
           { element := Element.entity p1e, co := (2, 0), index := 2, isEndpt := true }]).2)
        0 false).2 = true ∧
    (replacePairs tsA.segment.idx (tsA.segment.kind == EKind.circle)
        (ensurePoints scA
          [{ element := Element.entity lineM, co := (0, 0), index := 0 },
           { element := Element.entity p1e, co := (2, 0), index := 2, isEndpt := true }]).1
        [(0, CType.distance, [10, 2])]
        (toPairs (ensurePoints scA
          [{ element := Element.entity lineM, co := (0, 0), index := 0 },
           { element := Element.entity p1e, co := (2, 0), index := 2, isEndpt := true }]).2)
        0 false).1.constraints =
      (ensurePoints scA
        [{ element := Element.entity lineM, co := (0, 0), index := 0 },
         { element := Element.entity p1e, co := (2, 0), index := 2, isEndpt := true }]).1.constraints :=
  have h := reused_segment_constraints_untouched distX scA tsA
    [{ element := Element.entity lineM, co := (0, 0), index := 0 },
     { element := Element.entity p1e, co := (2, 0), index := 2, isEndpt := true }]
    [{ element := Element.entity p2e, co := (3, 0), index := 3, isEndpt := true }]
    [(0, CType.distance, [10, 2])] lineL
    (by decide) (by decide) (by decide) (by decide)
  ⟨h.1, h.2.1⟩

/-- C9 counterexample: the endpoint intersections that `TrimSegment.__init__`
creates carry a point entity as their `element`, so they satisfy `is_entity()`
and `is_endpoint()` at the same time — the three classifications are not
mutually exclusive as stated. -/
theorem endpoint_is_also_entity :
    ∃ i ∈ (TrimSegment.init scA lineL (5, 0)).inters,
      i.is_entity = true ∧ i.is_endpoint = true := by
  decide

/-- New intersections appended by `TrimSegment.add` are never endpoints. -/
theorem mem_add_inters (ts : TrimSegment) (el : Element) (co : Coord) (i : Intersection) :
    i ∈ (ts.add el co).inters → i ∈ ts.inters ∨ i.isEndpt = false := by
  intro h
  simp only [TrimSegment.add, List.mem_append, List.mem_singleton] at h
  rcases h with h | h
  · exact Or.inl h
  · subst h; exact Or.inr rfl

/-- Invariant preservation through a `foldl` that only grows the intersection
list with elements satisfying the invariant. -/
theorem foldl_inters_inv {α : Type} (P : Intersection → Prop)
    (f : TrimSegment → α → TrimSegment)
    (hf : ∀ ts a i, i ∈ (f ts a).inters → i ∈ ts.inters ∨ P i) :
    ∀ (l : List α) (ts : TrimSegment), (∀ i ∈ ts.inters, P i) →
      ∀ i ∈ (l.foldl f ts).inters, P i := by
  intro l
  induction l with
  | nil => intro ts h i hi; exact h i hi
  | cons a rest ih =>
    intro ts h i hi
    refine ih (f ts a) ?_ i hi
    intro j hj
    rcases hf ts a j hj with h1 | h2
    · exact h j h1
    · exact h2

/-- Intersections of a freshly initialized `TrimSegment` are endpoints backed by
point entities. -/
theorem init_inters_entity (s : Scene) (segment : Entity) (pos : Coord) :
    ∀ i ∈ (TrimSegment.init s segment pos).inters, i.is_entity = true := by
  intro i hi
  simp only [TrimSegment.init] at hi
  by_cases hc : isClosed segment = true
  · simp [hc] at hi
  · simp only [hc, Bool.false_eq_true, if_neg, ite_false] at hi
    revert hi
    refine foldl_inters_inv (fun j => j.is_entity = true) _ ?_ _ _ (by simp) i
    intro ts p j hj
    simp only [List.mem_append, List.mem_singleton] at hj
    rcases hj with h | h
    · exact Or.inl h
    · subst h
      exact Or.inr rfl

/-- C9 (amended): for every intersection, the element classifications
`is_entity` and `is_constraint` are mutually exclusive and exhaustive; endpoint
intersections of a trim run additionally always classify as entity
intersections (their element is a connection-point entity), so `is_endpoint`
overlaps with `is_entity` but never with `is_constraint`. -/
theorem intersection_classification_amended (intersectF : Entity → Entity → List Coord)
    (s : Scene) (segment : Entity) (pos : Coord) :
    (∀ i : Intersection, i.is_entity = !i.is_constraint) ∧
    (∀ i ∈ (buildTrim intersectF s segment pos).inters,
      (i.is_endpoint = true → i.is_entity = true) ∧
      ¬(i.is_constraint = true ∧ i.is_endpoint = true)) := by
  have hxor : ∀ i : Intersection, i.is_entity = !i.is_constraint := by
    intro i
    rcases he : i.element with e | ⟨cid, ct, es⟩ <;>
      simp [Intersection.is_entity, Intersection.is_constraint, he]
  refine ⟨hxor, ?_⟩
  have hfold : ∀ (e : Entity) (cos : List Coord) (ts : TrimSegment) (i : Intersection),
      i ∈ (cos.foldl (fun t co => t.add (Element.entity e) co) ts).inters →
      i ∈ ts.inters ∨ i.isEndpt = false := by
    intro e cos
    induction cos with
    | nil => intro ts i hi; exact Or.inl hi
    | cons co rest ih =>
      intro ts i hi
      rcases ih (ts.add (Element.entity e) co) i hi with h | h
      · rcases mem_add_inters _ _ _ _ h with h1 | h1
        · exact Or.inl h1
        · exact Or.inr h1
      · exact Or.inr h
  have hmain : ∀ i ∈ (buildTrim intersectF s segment pos).inters,
      i.is_endpoint = true → i.is_entity = true := by
    simp only [buildTrim]
    refine foldl_inters_inv _ _ ?_ _ _ ?_
    · -- constraint-derived additions are not endpoints
      intro ts c i hi
      by_cases hc : segment.idx ∈ c.ents
      · rw [if_pos hc] at hi
        rcases hfe : c.ents.head? >>= s.findEntity with _ | p
        · rw [hfe] at hi
          exact Or.inl hi
        · rw [hfe] at hi
          rcases mem_add_inters _ _ _ _ hi with h | h
          · exact Or.inl h
          · exact Or.inr (fun hb => by simp [Intersection.is_endpoint, h] at hb)
      · rw [if_neg hc] at hi
        exact Or.inl hi
    · -- segment-intersection additions are not endpoints either
      refine foldl_inters_inv _ _ ?_ _ _ ?_
      · intro ts e i hi
        by_cases hc : (isSegmentKind e.kind && !(e == segment)) = true
        · rw [if_pos hc] at hi
          rcases hfold e (intersectF segment e) ts i hi with h | h
          · exact Or.inl h
          · exact Or.inr (fun hb => by simp [Intersection.is_endpoint, h] at hb)
        · rw [if_neg hc] at hi
          exact Or.inl hi
      · intro i hi _
        exact init_inters_entity s segment pos i hi
  intro i hi
  refine ⟨hmain i hi, ?_⟩
  rintro ⟨hcon, hend⟩
  have he := hmain i hi hend
  rw [hxor i, hcon] at he
  cases he

/-- Witness for C9's amended statement: the first endpoint intersection of a
concrete trim run classifies as entity, never as constraint. -/
theorem intersection_classification_amended_witness :
    (({ element := Element.entity p3e, co := (0, 0), isEndpt := true } : Intersection).is_endpoint = true →
      ({ element := Element.entity p3e, co := (0, 0), isEndpt := true } : Intersection).is_entity = true) ∧
    ¬(({ element := Element.entity p3e, co := (0, 0), isEndpt := true } : Intersection).is_constraint = true ∧
      ({ element := Element.entity p3e, co := (0, 0), isEndpt := true } : Intersection).is_endpoint = true) :=
  (intersection_classification_amended intersectF1 scF lineL2 (5, 0)).2
    { element := Element.entity p3e, co := (0, 0), isEndpt := true } (by decide)

/-- `assignIdx` preserves length. -/
theorem assignIdx_length : ∀ (l : List Intersection) (k : Nat),
    (assignIdx k l).length = l.length := by
  intro l
  induction l with
  | nil => intro k; rfl
  | cons a t ih => intro k; simp [assignIdx, ih]

/-- The head of an index-assigned list carries the starting index. -/
theorem assignIdx_head (l : List Intersection) (k : Nat) (x : Intersection)
    (r : List Intersection) (h : assignIdx k l = x :: r) : x.index = (k : Int) := by
  cases l with
  | nil => simp [assignIdx] at h
  | cons a t =>
    simp only [assignIdx, List.cons.injEq] at h
    rw [← h.1]

/-- The last element of an index-assigned list carries the final index. -/
theorem assignIdx_getLastD : ∀ (l : List Intersection) (k : Nat) (d : Intersection),
    l ≠ [] → ((assignIdx k l).getLastD d).index = ((k + l.length - 1 : Nat) : Int) := by
  intro l
  induction l with
  | nil => intro k d h; exact absurd rfl h
  | cons a t ih =>
    intro k d _
    cases t with
    | nil => simp [assignIdx]
    | cons b r =>
      have hne : (b :: r : List Intersection) ≠ [] := by simp
      calc ((assignIdx k (a :: b :: r)).getLastD d).index
          = ((assignIdx (k + 1) (b :: r)).getLastD { a with index := (k : Int) }).index := by
            rw [show assignIdx k (a :: b :: r) =
              { a with index := (k : Int) } :: assignIdx (k + 1) (b :: r) from rfl]
            rw [List.getLastD_cons]
        _ = ((k + 1 + (b :: r).length - 1 : Nat) : Int) := ih (k + 1) _ hne
        _ = ((k + (a :: b :: r).length - 1 : Nat) : Int) := by
            simp only [List.length_cons]
            congr 1
            omega

/-- Membership in `pushUnique`. -/
theorem pushUnique_mem (l : List Intersection) (x y : Intersection) :
    x ∈ pushUnique l y ↔ x ∈ l ∨ x = y := by
  simp only [pushUnique]
  by_cases h : y ∈ l
  · rw [if_pos h]
    constructor
    · exact Or.inl
    · rintro (hx | rfl)
      · exact hx
      · exact h
  · rw [if_neg h]
    simp

/-- The relevant list built by the classification loop: endpoints away from the
two closest indices, plus non-endpoints at the two closest indices. -/
theorem relevantLoop_fst (c1 c2 : Int) :
    ∀ (l rel obs : List Intersection),
      (relevantLoop c1 c2 l (rel, obs)).1 =
        rel ++ l.filter (fun intr =>
          if intr.isEndpt then !(intr.index == c1 || intr.index == c2)
          else (intr.index == c1 || intr.index == c2)) := by
  intro l
  induction l with
  | nil => intro rel obs; simp [relevantLoop]
  | cons intr rest ih =>
    intro rel obs
    by_cases hE : intr.isEndpt = true
    · by_cases hC : (intr.index == c1 || intr.index == c2) = true
      · rw [show relevantLoop c1 c2 (intr :: rest) (rel, obs) =
            relevantLoop c1 c2 rest (rel, pushUnique obs intr) from by
          simp [relevantLoop, hE, hC]]
        rw [ih]
        rcases (by simpa using hC : intr.index = c1 ∨ intr.index = c2) with h | h <;>
          simp [List.filter_cons, hE, h]
      · have hC' : (intr.index == c1 || intr.index == c2) = false := by
          simpa using hC
        obtain ⟨h1, h2⟩ : ¬intr.index = c1 ∧ ¬intr.index = c2 := by
          simpa [not_or] using hC'
        rw [show relevantLoop c1 c2 (intr :: rest) (rel, obs) =
            relevantLoop c1 c2 rest (rel ++ [intr], obs) from by
          simp [relevantLoop, hE, hC']]
        rw [ih]
        simp [List.filter_cons, hE, h1, h2]
    · have hE' : intr.isEndpt = false := by simpa using hE
      by_cases hC : (intr.index == c1 || intr.index == c2) = true
      · rw [show relevantLoop c1 c2 (intr :: rest) (rel, obs) =
            relevantLoop c1 c2 rest (rel ++ [intr],
              if intr.is_constraint then pushUnique obs intr else obs) from by
          simp [relevantLoop, hE', hC]]
        rw [ih]
        rcases (by simpa using hC : intr.index = c1 ∨ intr.index = c2) with h | h <;>
          simp [List.filter_cons, hE', h]
      · have hC' : (intr.index == c1 || intr.index == c2) = false := by
          simpa using hC
        obtain ⟨h1, h2⟩ : ¬intr.index = c1 ∧ ¬intr.index = c2 := by
          simpa [not_or] using hC'
        rw [show relevantLoop c1 c2 (intr :: rest) (rel, obs) =
            relevantLoop c1 c2 rest (rel, obs) from by
          simp [relevantLoop, hE', hC']]
        rw [ih]
        simp [List.filter_cons, hE', h1, h2]

/-- Membership in the obsolete list built by the classification loop: the old
entries plus every element at a closest index that is an endpoint or
constraint-derived. -/
theorem relevantLoop_snd_mem (c1 c2 : Int) :
    ∀ (l rel obs : List Intersection) (x : Intersection),
      (x ∈ (relevantLoop c1 c2 l (rel, obs)).2 ↔
        x ∈ obs ∨ (x ∈ l ∧ ((x.index == c1 || x.index == c2) &&
          (x.isEndpt || x.is_constraint)) = true)) := by
  intro l
  induction l with
  | nil => intro rel obs x; simp [relevantLoop]
  | cons intr rest ih =>
    intro rel obs x
    by_cases hE : intr.isEndpt = true
    · by_cases hC : (intr.index == c1 || intr.index == c2) = true
      · rw [show relevantLoop c1 c2 (intr :: rest) (rel, obs) =
            relevantLoop c1 c2 rest (rel, pushUnique obs intr) from by
          simp [relevantLoop, hE, hC]]
        rw [ih, pushUnique_mem]
        have hP : ((intr.index == c1 || intr.index == c2) &&
            (intr.isEndpt || intr.is_constraint)) = true := by simp [hE, hC]
        constructor
        · rintro ((hx | rfl) | ⟨hx, hp⟩)
          · exact Or.inl hx
          · exact Or.inr ⟨List.mem_cons_self _ _, hP⟩
          · exact Or.inr ⟨List.mem_cons_of_mem _ hx, hp⟩
        · rintro (hx | ⟨hmem, hp⟩)
          · exact Or.inl (Or.inl hx)
          · rcases List.mem_cons.mp hmem with rfl | hx
            · exact Or.inl (Or.inr rfl)
            · exact Or.inr ⟨hx, hp⟩
      · have hC' : (intr.index == c1 || intr.index == c2) = false :=
          Bool.not_eq_true _ ▸ by simpa using hC
        rw [show relevantLoop c1 c2 (intr :: rest) (rel, obs) =
            relevantLoop c1 c2 rest (rel ++ [intr], obs) from by
          simp [relevantLoop, hE, hC']]
        rw [ih]
        have hP : ((intr.index == c1 || intr.index == c2) &&
            (intr.isEndpt || intr.is_constraint)) = false := by simp [hC']
        constructor
        · rintro (hx | ⟨hx, hp⟩)
          · exact Or.inl hx
          · exact Or.inr ⟨List.mem_cons_of_mem _ hx, hp⟩
        · rintro (hx | ⟨hmem, hp⟩)
          · exact Or.inl hx
          · rcases List.mem_cons.mp hmem with rfl | hx
            · rw [hP] at hp; cases hp
            · exact Or.inr ⟨hx, hp⟩
    · have hE' : intr.isEndpt = false := Bool.not_eq_true _ ▸ by simpa using hE
      by_cases hC : (intr.index == c1 || intr.index == c2) = true
      · by_cases hK : intr.is_constraint = true
        · rw [show relevantLoop c1 c2 (intr :: rest) (rel, obs) =
              relevantLoop c1 c2 rest (rel ++ [intr], pushUnique obs intr) from by
            simp [relevantLoop, hE', hC, hK]]
          rw [ih, pushUnique_mem]
          have hP : ((intr.index == c1 || intr.index == c2) &&
              (intr.isEndpt || intr.is_constraint)) = true := by simp [hK, hC]
          constructor
          · rintro ((hx | rfl) | ⟨hx, hp⟩)
            · exact Or.inl hx
            · exact Or.inr ⟨List.mem_cons_self _ _, hP⟩
            · exact Or.inr ⟨List.mem_cons_of_mem _ hx, hp⟩
          · rintro (hx | ⟨hmem, hp⟩)
            · exact Or.inl (Or.inl hx)
            · rcases List.mem_cons.mp hmem with rfl | hx
              · exact Or.inl (Or.inr rfl)
              · exact Or.inr ⟨hx, hp⟩
        · have hK' : intr.is_constraint = false := Bool.not_eq_true _ ▸ by simpa using hK
          rw [show relevantLoop c1 c2 (intr :: rest) (rel, obs) =
              relevantLoop c1 c2 rest (rel ++ [intr], obs) from by
            simp [relevantLoop, hE', hC, hK']]
          rw [ih]
          have hP : ((intr.index == c1 || intr.index == c2) &&
              (intr.isEndpt || intr.is_constraint)) = false := by simp [hE', hK']
          constructor
          · rintro (hx | ⟨hx, hp⟩)
            · exact Or.inl hx
            · exact Or.inr ⟨List.mem_cons_of_mem _ hx, hp⟩
          · rintro (hx | ⟨hmem, hp⟩)
            · exact Or.inl hx
            · rcases List.mem_cons.mp hmem with rfl | hx
              · rw [hP] at hp; cases hp
              · exact Or.inr ⟨hx, hp⟩
      · have hC' : (intr.index == c1 || intr.index == c2) = false :=
          Bool.not_eq_true _ ▸ by simpa using hC
        rw [show relevantLoop c1 c2 (intr :: rest) (rel, obs) =
            relevantLoop c1 c2 rest (rel, obs) from by
          simp [relevantLoop, hE', hC']]
        rw [ih]
        have hP : ((intr.index == c1 || intr.index == c2) &&
            (intr.isEndpt || intr.is_constraint)) = false := by simp [hC']
        constructor
        · rintro (hx | ⟨hx, hp⟩)
          · exact Or.inl hx
          · exact Or.inr ⟨List.mem_cons_of_mem _ hx, hp⟩
        · rintro (hx | ⟨hmem, hp⟩)
          · exact Or.inl hx
          · rcases List.mem_cons.mp hmem with rfl | hx
            · rw [hP] at hp; cases hp
            · exact Or.inr ⟨hx, hp⟩

/-- C1: `relevant_intersections()` returns exactly the endpoint intersections
whose assigned index is neither first nor last in the distance ordering, plus
the non-endpoint intersections whose index is first or last; an endpoint at a
first/last index is put on the obsolete list and excluded from the relevant
list, and a constraint-derived intersection at a first/last index is put on the
obsolete list while staying relevant. -/
theorem relevant_intersections_classification (dist : Coord → Coord → Int)
    (ts : TrimSegment) (h : ts.inters ≠ []) (h0 : ts.obsolete = []) :
    ∃ rel obs,
      ts.relevant_intersections dist = some (rel, obs) ∧
      rel = (ts.get_intersections dist).filter (fun intr =>
        if intr.isEndpt then
          !(intr.index == 0 || intr.index == ((ts.get_intersections dist).length : Int) - 1)
        else (intr.index == 0 || intr.index == ((ts.get_intersections dist).length : Int) - 1)) ∧
      (∀ x ∈ ts.get_intersections dist,
        (x ∈ obs ↔ ((x.index == 0 || x.index == ((ts.get_intersections dist).length : Int) - 1) &&
          (x.isEndpt || x.is_constraint)) = true)) := by
  have hslen : (ts.sortedInters dist).length = ts.inters.length := by
    simp [TrimSegment.sortedInters, List.length_insertionSort]
  have hsne : ts.sortedInters dist ≠ [] := by
    intro hnil
    apply h
    rw [hnil] at hslen
    exact List.eq_nil_of_length_eq_zero hslen.symm
  cases hord : ts.get_intersections dist with
  | nil =>
    exfalso
    have hlen0 : (assignIdx 0 (ts.sortedInters dist)).length = 0 := by
      rw [← TrimSegment.get_intersections, hord]
      rfl
    rw [assignIdx_length] at hlen0
    exact hsne (List.eq_nil_of_length_eq_zero hlen0)
  | cons first rest =>
    have hassign : assignIdx 0 (ts.sortedInters dist) = first :: rest := hord
    have hc1 : first.index = (0 : Int) := assignIdx_head _ 0 first rest hassign
    have hlen : (first :: rest).length = (ts.sortedInters dist).length := by
      rw [← hassign, assignIdx_length]
    have hpos : 1 ≤ (ts.sortedInters dist).length := List.length_pos.mpr hsne
    have hc2 : ((first :: rest).getLastD first).index =
        (((first :: rest).length : Int) - 1) := by
      rw [← hassign, assignIdx_getLastD _ 0 first hsne, hassign, hlen]
      omega
    have heq : ts.relevant_intersections dist =
        some (relevantLoop first.index (((first :: rest).getLastD first).index)
          (first :: rest) ([], ts.obsolete)) := by
      unfold TrimSegment.relevant_intersections
      rw [hord]
    rw [hc1, hc2, h0] at heq
    refine ⟨(relevantLoop 0 (((first :: rest).length : Int) - 1) (first :: rest) ([], [])).1,
        (relevantLoop 0 (((first :: rest).length : Int) - 1) (first :: rest) ([], [])).2,
        heq, ?_, ?_⟩
    · rw [relevantLoop_fst]
      simp
    · intro x hx
      rw [relevantLoop_snd_mem]
      simp only [List.not_mem_nil, false_or]
      constructor
      · rintro ⟨_, hp⟩
        exact hp
      · intro hp
        exact ⟨hx, hp⟩

/-- Witness for C1 at the concrete trim `tsA` (two endpoints, two crossings). -/
theorem relevant_intersections_classification_witness :
    ∃ rel obs,
      tsA.relevant_intersections distX = some (rel, obs) ∧
      rel = (tsA.get_intersections distX).filter (fun intr =>
        if intr.isEndpt then
          !(intr.index == 0 || intr.index == ((tsA.get_intersections distX).length : Int) - 1)
        else (intr.index == 0 || intr.index == ((tsA.get_intersections distX).length : Int) - 1)) ∧
      (∀ x ∈ tsA.get_intersections distX,
        (x ∈ obs ↔ ((x.index == 0 || x.index == ((tsA.get_intersections distX).length : Int) - 1) &&
          (x.isEndpt || x.is_constraint)) = true)) :=
  relevant_intersections_classification distX tsA (by decide) rfl

end Sketcher
